import Mathlib

/-!
Verification development for the amazon_price_tracker repository
(single source file `src/main.py`).

The development shallowly embeds the parts of `main.py` that carry the
logic under scrutiny:

* the price-text normalization inside `get_price` (lines 74-88),
* `send_email` (lines 93-124),
* `delete_tracker_file` (lines 146-150) over a file-store model,
* the per-tracker evaluation loop of `check_all_trackers` (lines 153-184),
* the `/track` endpoint `track` (lines 195-228).

External effects (Selenium page fetch, SMTP transport, the clock, uuid
generation) are passed in as explicit oracle arguments; the durable
store is a list of (file name, record) pairs.  Python machine floats are
modelled exactly: finite values as rationals, plus `inf`/`-inf`/`nan`
(Python's `float(str)` accepts the spellings "inf", "infinity", "nan").
-/

namespace PriceTracker

/-- Model of a Python float value: a finite value (represented exactly as a
rational), a signed infinity, or nan.  `float(str)` can produce all three. -/
inductive PyFloat where
  | finite (q : ℚ)
  | inf (neg : Bool)
  | nan
deriving DecidableEq

/-- Python `<=` on floats: any comparison involving nan is False;
`-inf <= x` and `x <= inf` hold for non-nan `x`. -/
def pyLe : PyFloat → PyFloat → Bool
  | PyFloat.nan, _ => false
  | _, PyFloat.nan => false
  | PyFloat.inf true, _ => true
  | _, PyFloat.inf false => true
  | PyFloat.inf false, _ => false
  | _, PyFloat.inf true => false
  | PyFloat.finite a, PyFloat.finite b => decide (a ≤ b)

/-- Python `<` on floats, expressed from `pyLe` (equivalent on the float
order, where for non-nan values `a < b` iff `a <= b` and not `b <= a`). -/
def pyLt (a b : PyFloat) : Bool := pyLe a b && !(pyLe b a)

/-- Whitespace characters stripped by Python's `str.strip()` and ignored at
the ends of the argument of `float(str)` (ASCII subset). -/
def isWsPy (c : Char) : Bool :=
  c = ' ' || c = '\t' || c = '\n' || c = '\x0d' || c = '\x0b' || c = '\x0c'

/-- Strip leading and trailing whitespace, as Python `str.strip()`. -/
def trimWs (l : List Char) : List Char :=
  ((l.dropWhile isWsPy).reverse.dropWhile isWsPy).reverse

/-- Python `str.replace(pat, "")` for a non-empty pattern `p :: ps`:
scan left to right, removing each non-overlapping occurrence and resuming
the scan after the removed region (Python does not rescan the result).
Structured with explicit fuel (sufficient whenever it is at least the
input length, since each step consumes at least one character) so the
function reduces by kernel computation. -/
def stripPat (p : Char) (ps : List Char) : Nat → List Char → List Char
  | _, [] => []
  | 0, l => l
  | Nat.succ n, c :: rest =>
    if c == p && ps.isPrefixOf rest then stripPat p ps n (rest.drop ps.length)
    else c :: stripPat p ps n rest

/-- Python `str.replace(p :: ps, "")`. -/
def removePat (p : Char) (ps : List Char) (l : List Char) : List Char :=
  stripPat p ps l.length l

/-- Lines 74-75 of `get_price`: strip the currency markers "₹", "Rs.",
"INR", then all commas and spaces, then surrounding whitespace. -/
def cleanChars (l : List Char) : List Char :=
  trimWs (removePat ' ' [] (removePat ',' []
    (removePat 'I' ['N', 'R'] (removePat 'R' ['s', '.'] (removePat '₹' [] l)))))

/-- Consume a digit run in Python's float grammar: digits possibly separated
by single underscores (an underscore must sit between two digits).
Returns the digits collected and the unconsumed remainder. -/
def takeDigitsU : List Char → List Char × List Char
  | [] => ([], [])
  | [c] => if c.isDigit then ([c], []) else ([], [c])
  | c :: '_' :: rest2 =>
    if c.isDigit then
      match rest2 with
      | c2 :: _ =>
        if c2.isDigit then
          let p := takeDigitsU rest2
          (c :: p.1, p.2)
        else ([c], '_' :: rest2)
      | [] => ([c], ['_'])
    else ([], c :: '_' :: rest2)
  | c :: c2 :: rest2 =>
    if c.isDigit then
      let p := takeDigitsU (c2 :: rest2)
      (c :: p.1, p.2)
    else ([], c :: c2 :: rest2)

/-- Numeric value of a list of decimal digit characters. -/
def digitsToNat (ds : List Char) : Nat :=
  ds.foldl (fun a c => 10 * a + (c.toNat - 48)) 0

/-- Split an optional leading sign, as Python's float grammar does. -/
def splitSign : List Char → Bool × List Char
  | '-' :: rest => (true, rest)
  | '+' :: rest => (false, rest)
  | l => (false, l)

/-- Ten to a natural power. -/
def pow10 : Nat → Nat
  | 0 => 1
  | Nat.succ n => 10 * pow10 n

/-- The exact rational `m * 10 ^ te` for a natural mantissa and an integer
exponent, built from one normalized fraction. -/
def scaleByPow10 (m : Nat) (te : Int) : ℚ :=
  match te with
  | Int.ofNat k => mkRat (Int.ofNat (m * pow10 k)) 1
  | Int.negSucc k => mkRat (Int.ofNat m) (pow10 (k + 1))

/-- Parse the optional exponent suffix of Python's float grammar
(`e`/`E`, optional sign, a non-empty digit run); the whole remainder must
be consumed.  Returns the exponent, or `none` on trailing garbage. -/
def parseExpPart : List Char → Option Int
  | [] => some 0
  | c :: rest =>
    if c == 'e' || c == 'E' then
      let sg := splitSign rest
      let q := takeDigitsU sg.2
      if q.1 ≠ [] ∧ q.2 = [] then
        some (if sg.1 then -(digitsToNat q.1 : Int) else (digitsToNat q.1 : Int))
      else none
    else none

/-- Parse an unsigned decimal of Python's float grammar:
`digits [. digits] [exp]` or `. digits [exp]`, with single underscores
allowed between digits; the whole input must be consumed. -/
def parseDecimal (l : List Char) : Option ℚ :=
  let p1 := takeDigitsU l
  let p2 : List Char × List Char :=
    match p1.2 with
    | '.' :: rest => takeDigitsU rest
    | _ => ([], p1.2)
  let fp := if isDot p1.2 then p2.1 else []
  let r2 := if isDot p1.2 then p2.2 else p1.2
  if p1.1 = [] ∧ fp = [] then none
  else
    match parseExpPart r2 with
    | none => none
    | some e =>
      some (scaleByPow10 (digitsToNat (p1.1 ++ fp)) (e - (fp.length : Int)))
where
  isDot : List Char → Bool
    | '.' :: _ => true
    | _ => false

/-- Case-insensitive comparison of a character list with a literal. -/
def lcEq (l : List Char) (s : String) : Bool :=
  l.map Char.toLower == s.data

/-- Spellings accepted by Python's `float(str)` that contain no digit:
"inf", "infinity" and "nan", case-insensitively (after sign removal). -/
def isSpecialLit (l : List Char) : Bool :=
  lcEq l "inf" || lcEq l "infinity" || lcEq l "nan"

/-- The input of the special/decimal parse inside `float(str)`: the argument
trimmed of surrounding whitespace and of one optional sign. -/
def afterSign (l : List Char) : List Char := (splitSign (trimWs l)).2

/-- Model of Python `float(str)`: strip surrounding whitespace, take an
optional sign, then accept `inf`/`infinity`/`nan` case-insensitively or a
decimal number with optional fraction and exponent.  `none` models a
raised `ValueError`. -/
def pyFloatOfChars (l : List Char) : Option PyFloat :=
  let t := trimWs l
  let neg := (splitSign t).1
  let r := (splitSign t).2
  if isSpecialLit r then
    if lcEq r "nan" then some PyFloat.nan else some (PyFloat.inf neg)
  else
    match parseDecimal r with
    | some q => some (PyFloat.finite (if neg then -q else q))
    | none => none

/-- Character class of the regex `[\d\.]+` at line 82 (ASCII digits;
the model restricts Python's unicode `\d` to ASCII). -/
def numClass (c : Char) : Bool := c.isDigit || c = '.'

/-- First match of `re.findall(r"[\d\.]+", ...)` (line 82): the leftmost
maximal run of digit-or-dot characters, if any. -/
def firstNumRun : List Char → Option (List Char)
  | [] => none
  | c :: rest =>
    if numClass c then some (c :: rest.takeWhile numClass)
    else firstNumRun rest

/-- Lines 71-88 of `get_price`: normalization of the matched price text.
Empty text yields `None` (line 71); otherwise the text is cleaned
(lines 74-75) and parsed with `float` (line 78); if that raises, the first
`[\d\.]+` run is parsed instead (lines 82-87); any remaining failure
yields `None`. -/
def get_price_normalize (price_text : String) : Option PyFloat :=
  if price_text = "" then none
  else
    let cleaned := cleanChars price_text.data
    match pyFloatOfChars cleaned with
    | some v => some v
    | none =>
      match firstNumRun cleaned with
      | some r => pyFloatOfChars r
      | none => none

/-- Python exception classes distinguished by the embedded code:
`float(x)` raises `ValueError` on an unparseable string and `TypeError`
on a non-convertible type; `/track` catches only `ValueError`. -/
inductive PyErr where
  | valueError
  | typeError
deriving DecidableEq

/-- A JSON value as decoded by Python's `json` module, to the granularity
the embedded code observes.  Numbers carry a `PyFloat` because Python's
`json` round-trips `NaN`/`Infinity`.  `arr`/`obj` stand for (non-empty)
containers; the code never looks inside them. -/
inductive JVal where
  | num (v : PyFloat)
  | str (s : String)
  | bool (b : Bool)
  | null
  | arr
  | obj
deriving DecidableEq

/-- Python truthiness of a JSON-decoded value (`arr`/`obj` model non-empty
containers, hence truthy). -/
def jvalTruthy : JVal → Bool
  | JVal.num v => !(v == PyFloat.finite 0)
  | JVal.str s => !(s == "")
  | JVal.bool b => b
  | JVal.null => false
  | JVal.arr => true
  | JVal.obj => true

/-- Python `float(x)` on a JSON-decoded value: numbers and booleans
convert; strings go through the float grammar (`ValueError` on failure);
`None` and containers raise `TypeError`. -/
def pyFloatOfJVal : JVal → Except PyErr PyFloat
  | JVal.num v => Except.ok v
  | JVal.str s =>
    match pyFloatOfChars s.data with
    | some v => Except.ok v
    | none => Except.error PyErr.valueError
  | JVal.bool b => Except.ok (PyFloat.finite (if b then 1 else 0))
  | JVal.null => Except.error PyErr.typeError
  | JVal.arr => Except.error PyErr.typeError
  | JVal.obj => Except.error PyErr.typeError

/-- A persisted tracker record as read back by `json.load`: the four
fields written by `save_tracker`, each possibly absent (`tracker.get`
returns `None` for a missing key).  `url`/`email` are the strings the
`/track` endpoint stores; `target_price` is kept as a JSON value because
`check_all_trackers` converts it with `float(...)`. -/
structure Tracker where
  url : Option String
  target_price : Option JVal
  email : Option String
  created_at : Option ℚ
deriving DecidableEq

/-- Line 159: `if not url or target is None or not email`.  A record is
invalid when `url` is missing or empty, `target_price` is missing or JSON
null, or `email` is missing or empty. -/
def invalidTracker (t : Tracker) : Bool :=
  (match t.url with | none => true | some s => s == "") ||
  (match t.target_price with | none => true | some v => v == JVal.null) ||
  (match t.email with | none => true | some s => s == "")

/-- The durable store: one entry per tracker file, keyed by the file's
stem (the tracker id).  `load_all_trackers` enumerates these entries. -/
abbrev FS := List (String × Tracker)

/-- Lines 147-148: `path.unlink()`, which raises when the file is absent. -/
def unlink (fs : FS) (id : String) : Except Unit FS :=
  if fs.any (fun e => e.1 == id) then Except.ok (fs.filter (fun e => e.1 != id))
  else Except.error ()

/-- Lines 146-150, `delete_tracker_file`: `unlink` wrapped in
`try/except`, so a failed unlink leaves the store unchanged and raises
nothing to the caller. -/
def delete_tracker_file (fs : FS) (id : String) : FS :=
  match unlink fs id with
  | Except.ok fs2 => fs2
  | Except.error _ => fs

/-- The SMTP sender credentials read from the environment at lines 21-22;
`os.getenv` yields `None` when unset. -/
structure SmtpConfig where
  senderEmail : Option String
  senderPassword : Option String

/-- Line 112: `if not SENDER_EMAIL or not SENDER_PASSWORD` — a credential
is missing when unset or empty. -/
def credsMissing (cfg : SmtpConfig) : Bool :=
  (match cfg.senderEmail with | none => true | some s => s == "") ||
  (match cfg.senderPassword with | none => true | some s => s == "")

/-- Lines 93-124, `send_email`.  The `transport` oracle is the outcome of
the `smtplib` block (connect, starttls, login, sendmail): `ok` if it ran
to completion, `error` if any of it raised.  The result pairs the
returned boolean with the number of delivery attempts made: with missing
credentials the function returns `False` before touching the network
(line 112-114); otherwise the block runs exactly once and any exception
is caught and turned into `False` (lines 116-124). -/
def send_email (cfg : SmtpConfig) (transport : Except Unit Unit) : Bool × Nat :=
  if credsMissing cfg then (false, 0)
  else
    match transport with
    | Except.ok _ => (true, 1)
    | Except.error _ => (false, 1)

/-- Observable side effects of one evaluation, tagged with the tracker id:
the record being written (`saved`), the loop reaching the record
(`visited`), a `get_price` call (`resolveCall`), a `send_email` call with
its outcome (`notifyCall`; `none` models the call raising), and a
`delete_tracker_file` call (`deleteAttempt`). -/
inductive Event where
  | saved (id : String)
  | visited (id : String)
  | resolveCall (id : String)
  | notifyCall (id : String) (result : Option Bool)
  | deleteAttempt (id : String)
deriving DecidableEq

/-- The tracker id an event is tagged with. -/
def eventId : Event → String
  | Event.saved i => i
  | Event.visited i => i
  | Event.resolveCall i => i
  | Event.notifyCall i _ => i
  | Event.deleteAttempt i => i

/-- Loop body of `check_all_trackers` (lines 156-184) for one record.
`resolve` is the outcome of `get_price(url)` (`error` = the fetch raised,
caught at lines 163-167; `ok none` = price not found).  `notify` is the
outcome of `send_email` (`some b` = returned `b`; `none` models the call
raising, caught by the `try` at line 175).  The result is the emitted
events plus whether the record was deleted; `Except.error` returns the
events emitted before `float(target)` at line 173 raised — that call sits
outside both `try` blocks, so the exception propagates and aborts the
whole pass. -/
def check_one_tracker (resolve : Except Unit (Option PyFloat))
    (notify : Option Bool) (id : String) (t : Tracker) :
    Except (List Event) (List Event × Bool) :=
  if invalidTracker t then Except.ok ([Event.visited id], false)
  else
    match resolve with
    | Except.error _ => Except.ok ([Event.visited id, Event.resolveCall id], false)
    | Except.ok none => Except.ok ([Event.visited id, Event.resolveCall id], false)
    | Except.ok (some current) =>
      match pyFloatOfJVal (t.target_price.getD JVal.null) with
      | Except.error _ => Except.error [Event.visited id, Event.resolveCall id]
      | Except.ok tq =>
        if pyLe current tq then
          match notify with
          | some true =>
            Except.ok ([Event.visited id, Event.resolveCall id,
              Event.notifyCall id (some true), Event.deleteAttempt id], true)
          | some false =>
            Except.ok ([Event.visited id, Event.resolveCall id,
              Event.notifyCall id (some false)], false)
          | none =>
            Except.ok ([Event.visited id, Event.resolveCall id,
              Event.notifyCall id none], false)
        else Except.ok ([Event.visited id, Event.resolveCall id], false)

/-- Events emitted while evaluating one record, whether or not the
evaluation ended in the uncaught line-173 exception. -/
def stepEvents (resolve : Except Unit (Option PyFloat)) (notify : Option Bool)
    (id : String) (t : Tracker) : List Event :=
  match check_one_tracker resolve notify id t with
  | Except.ok (evs, _) => evs
  | Except.error evs => evs

/-- Whether evaluating one record deletes it (an aborted evaluation
deletes nothing). -/
def stepDeletes (resolve : Except Unit (Option PyFloat)) (notify : Option Bool)
    (id : String) (t : Tracker) : Bool :=
  match check_one_tracker resolve notify id t with
  | Except.ok (_, del) => del
  | Except.error _ => false

/-- The `for` loop of `check_all_trackers` over the listed records, with
the store threaded through deletions.  Returns (pass aborted by an
uncaught exception, final store, events in emission order); on abort the
remaining records are not evaluated. -/
def check_all_trackers_aux (resolve : String → Except Unit (Option PyFloat))
    (notify : String → Option Bool) :
    List (String × Tracker) → FS → Bool × FS × List Event
  | [], fs => (false, fs, [])
  | (id, t) :: rest, fs =>
    match check_one_tracker (resolve id) (notify id) id t with
    | Except.error evs => (true, fs, evs)
    | Except.ok (evs, del) =>
      let fs2 := if del then delete_tracker_file fs id else fs
      let r := check_all_trackers_aux resolve notify rest fs2
      (r.1, r.2.1, evs ++ r.2.2)

/-- Lines 153-184, `check_all_trackers`: one full pass evaluating every
currently persisted record. -/
def check_all_trackers (resolve : String → Except Unit (Option PyFloat))
    (notify : String → Option Bool) (fs : FS) : Bool × FS × List Event :=
  check_all_trackers_aux resolve notify fs fs

/-- `n` consecutive scheduled passes; the oracles are additionally indexed
by the pass number.  (APScheduler logs a job's exception and keeps the
schedule, so an aborted pass does not stop later passes.) -/
def check_all_trackers_iter (resolve : Nat → String → Except Unit (Option PyFloat))
    (notify : Nat → String → Option Bool) : Nat → FS → FS × List Event
  | 0, fs => (fs, [])
  | Nat.succ n, fs =>
    let r := check_all_trackers (resolve 0) (notify 0) fs
    let r2 := check_all_trackers_iter (fun i => resolve (i + 1))
      (fun i => notify (i + 1)) n r.2.1
    (r2.1, r.2.2 ++ r2.2)

/-- The request body fields the `/track` endpoint reads (lines 197-200).
`target_price` falls back to the key `target` via Python `or`. -/
structure TrackRequest where
  url : Option String
  target_price : Option JVal
  target : Option JVal
  email : Option String

/-- Python `a or b` over two `dict.get` results. -/
def jvalOr (a b : Option JVal) : Option JVal :=
  match a with
  | some v => if jvalTruthy v then some v else b
  | none => b

/-- Truthiness of an optional string (`None` and `""` are falsy). -/
def strTruthy (o : Option String) : Bool :=
  match o with
  | none => false
  | some s => !(s == "")

/-- The JSON body of the `/track` response together with the HTTP status. -/
structure TrackResponse where
  ok : Bool
  status : Nat
  id : Option String
  emailed : Option Bool
  current_price : Option PyFloat
deriving DecidableEq

/-- Lines 195-228, the `/track` endpoint.  `freshId` is the uuid chosen by
`save_tracker`, `now` the `time.time()` value, `resolve` the outcome of
the immediate `get_price` call (whose exception is caught at lines
212-215), `notify` the outcome of `send_email` (`none` models a raise,
caught at lines 219-226).  Validation rejects falsy fields with a 400, a
`ValueError` from `float(target)` gives a 400, and an uncaught
`TypeError` from it escapes as a 500; otherwise the record is saved and
immediately evaluated once with the same compare/notify/delete logic as
the scheduled pass. -/
def track (freshId : String) (now : ℚ) (resolve : Except Unit (Option PyFloat))
    (notify : Option Bool) (req : TrackRequest) (fs : FS) :
    TrackResponse × FS × List Event :=
  let target := jvalOr req.target_price req.target
  if !strTruthy req.url || !(match target with | some v => jvalTruthy v | none => false)
      || !strTruthy req.email then
    ({ok := false, status := 400, id := none, emailed := none, current_price := none},
      fs, [])
  else
    match pyFloatOfJVal (target.getD JVal.null) with
    | Except.error PyErr.valueError =>
      ({ok := false, status := 400, id := none, emailed := none, current_price := none},
        fs, [])
    | Except.error PyErr.typeError =>
      ({ok := false, status := 500, id := none, emailed := none, current_price := none},
        fs, [])
    | Except.ok tp =>
      let t : Tracker := Tracker.mk req.url (some (JVal.num tp)) req.email (some now)
      let fs2 := fs ++ [(freshId, t)]
      match resolve with
      | Except.error _ =>
        ({ok := true, status := 200, id := some freshId, emailed := some false,
          current_price := none}, fs2,
          [Event.saved freshId, Event.resolveCall freshId])
      | Except.ok none =>
        ({ok := true, status := 200, id := some freshId, emailed := some false,
          current_price := none}, fs2,
          [Event.saved freshId, Event.resolveCall freshId])
      | Except.ok (some current) =>
        if pyLe current tp then
          match notify with
          | some true =>
            ({ok := true, status := 200, id := some freshId, emailed := some true,
              current_price := some current}, delete_tracker_file fs2 freshId,
              [Event.saved freshId, Event.resolveCall freshId,
                Event.notifyCall freshId (some true), Event.deleteAttempt freshId])
          | some false =>
            ({ok := true, status := 200, id := some freshId, emailed := some false,
              current_price := some current}, fs2,
              [Event.saved freshId, Event.resolveCall freshId,
                Event.notifyCall freshId (some false)])
          | none =>
            ({ok := true, status := 200, id := some freshId, emailed := some false,
              current_price := some current}, fs2,
              [Event.saved freshId, Event.resolveCall freshId,
                Event.notifyCall freshId none])
        else
          ({ok := true, status := 200, id := some freshId, emailed := some false,
            current_price := some current}, fs2,
            [Event.saved freshId, Event.resolveCall freshId])

/-- A contiguous segment of a list (the events of one evaluation appear
contiguously in a pass's event trace). -/
def isSegment {α : Type} (r l : List α) : Prop :=
  ∃ p q, l = p ++ r ++ q

/-- A well-formed creation request: string url and email, a finite numeric
`target_price`, an arbitrary value under the fallback key `target`. -/
def mkReq (url : String) (q : ℚ) (hot : Option JVal) (email : String) : TrackRequest :=
  TrackRequest.mk (some url) (some (JVal.num (PyFloat.finite q))) hot (some email)

/-- The record `/track` persists for a well-formed request (line 210). -/
def mkTracker (url : String) (q : ℚ) (email : String) (now : ℚ) : Tracker :=
  Tracker.mk (some url) (some (JVal.num (PyFloat.finite q))) (some email) (some now)

/-- A persisted record whose `target_price` is the JSON string "abc":
it passes the line-159 validity check (the field is present and truthy)
but `float(target)` on it raises `ValueError`. -/
def strTargetTracker : Tracker :=
  Tracker.mk (some "u") (some (JVal.str "abc")) (some "e") none

/-- A well-formed pending record with numeric target 500. -/
def okTracker : Tracker :=
  Tracker.mk (some "u2") (some (JVal.num (PyFloat.finite 500))) (some "e2") none

/-- A store holding the string-target record followed by a well-formed one. -/
def abortStore : FS := [("a", strTargetTracker), ("b", okTracker)]

/-- A creation request whose target_price is the number 0: numeric, yet
rejected, because `data.get("target_price") or data.get("target")`
treats the falsy 0 as missing and the endpoint answers 400 before
persisting anything. -/
def zeroTargetReq : TrackRequest :=
  TrackRequest.mk (some "u") (some (JVal.num (PyFloat.finite 0))) none (some "e")

/-- Characters surviving a `str.replace(pat, "")` come from the input. -/
lemma stripPat_subset (p : Char) (ps : List Char) :
    ∀ (n : Nat) (l : List Char), ∀ c ∈ stripPat p ps n l, c ∈ l := by
  intro n
  induction n with
  | zero =>
    intro l c hc
    cases l with
    | nil => rw [stripPat] at hc; exact absurd hc (List.not_mem_nil c)
    | cons a rest =>
      rw [stripPat] at hc
      · exact hc
      · simp
  | succ n ih =>
    intro l c hc
    cases l with
    | nil => rw [stripPat] at hc; exact absurd hc (List.not_mem_nil c)
    | cons a rest =>
      rw [stripPat] at hc
      by_cases hcond : (a == p && ps.isPrefixOf rest) = true
      · rw [if_pos hcond] at hc
        exact List.mem_cons_of_mem a (List.drop_subset _ _ (ih _ c hc))
      · rw [if_neg hcond] at hc
        rcases List.mem_cons.mp hc with h | h
        · exact h ▸ List.mem_cons_self a rest
        · exact List.mem_cons_of_mem a (ih _ c h)

/-- Characters surviving `removePat` come from the input. -/
lemma removePat_subset (p : Char) (ps : List Char) (l : List Char) :
    ∀ c ∈ removePat p ps l, c ∈ l :=
  stripPat_subset p ps l.length l

/-- Characters surviving `str.strip()` come from the input. -/
lemma trimWs_subset (l : List Char) : ∀ c ∈ trimWs l, c ∈ l := by
  intro c hc
  unfold trimWs at hc
  rw [List.mem_reverse] at hc
  have h1 := (List.dropWhile_sublist (l := (l.dropWhile isWsPy).reverse) isWsPy).subset hc
  rw [List.mem_reverse] at h1
  exact (List.dropWhile_sublist isWsPy).subset h1

/-- Stripping a sign keeps a suffix of the input. -/
lemma splitSign_subset (l : List Char) : ∀ c ∈ (splitSign l).2, c ∈ l := by
  intro c hc
  unfold splitSign at hc
  split at hc <;> simp_all

/-- The post-sign trimmed text is made of input characters. -/
lemma afterSign_subset (l : List Char) : ∀ c ∈ afterSign l, c ∈ l := by
  intro c hc
  exact trimWs_subset l c (splitSign_subset (trimWs l) c hc)

/-- On digit-free input the digit-run consumer consumes nothing. -/
lemma takeDigitsU_nodigit (l : List Char) :
    (∀ c ∈ l, c.isDigit = false) → takeDigitsU l = ([], l) := by
  induction l using takeDigitsU.induct <;> intro h <;> simp_all [takeDigitsU]

/-- Python's decimal float grammar rejects digit-free text. -/
lemma parseDecimal_nodigit (l : List Char) (h : ∀ c ∈ l, c.isDigit = false) :
    parseDecimal l = none := by
  unfold parseDecimal
  rw [takeDigitsU_nodigit l h]
  cases hl : l with
  | nil => simp [parseDecimal.isDot]
  | cons a rest =>
    by_cases hdot : a = '.'
    · subst hdot
      have hrest : ∀ c ∈ rest, c.isDigit = false := by
        intro c hc; exact h c (hl ▸ List.mem_cons_of_mem _ hc)
      simp only [parseDecimal.isDot, takeDigitsU_nodigit rest hrest]
      simp
    · have : parseDecimal.isDot (a :: rest) = false := by
        simp only [parseDecimal.isDot]
        split <;> simp_all
      simp [this]

/-- Any accepted special spelling contains the letter n (lower or upper):
"inf", "infinity" and "nan" all do. -/
lemma isSpecialLit_has_n (l : List Char) (h : isSpecialLit l = true) :
    ∃ c ∈ l, Char.toLower c = 'n' := by
  have hn : 'n' ∈ l.map Char.toLower := by
    unfold isSpecialLit lcEq at h
    simp only [Bool.or_eq_true, beq_iff_eq] at h
    rcases h with (h1 | h2) | h3
    · rw [h1]; decide
    · rw [h2]; decide
    · rw [h3]; decide
  rcases List.mem_map.mp hn with ⟨c, hc, hcl⟩
  exact ⟨c, hc, hcl⟩

/-- Python `float(str)` rejects digit-free text that does not spell one of
the special literals inf/infinity/nan. -/
lemma pyFloatOfChars_nodigit (l : List Char)
    (h : ∀ c ∈ l, c.isDigit = false)
    (hs : isSpecialLit (afterSign l) = false) :
    pyFloatOfChars l = none := by
  have hs2 : isSpecialLit ((splitSign (trimWs l)).2) = false := hs
  have hp : parseDecimal ((splitSign (trimWs l)).2) = none :=
    parseDecimal_nodigit _ (fun c hc => h c (afterSign_subset l c hc))
  simp only [pyFloatOfChars, hs2, Bool.false_eq_true, if_false, hp]

/-- A digit-free character list never spells a special float literal
(each special spelling contains the letter n). -/
lemma isSpecialLit_false_of_no_n (l : List Char)
    (h : ∀ c ∈ l, Char.toLower c ≠ 'n') : isSpecialLit l = false := by
  by_contra hc
  rcases isSpecialLit_has_n l (Bool.not_eq_false _ ▸ hc) with ⟨c, hcl, hcn⟩
  exact h c hcl hcn

/-- The first `[\d\.]+` match is non-empty, consists of digit-or-dot
characters, and occurs contiguously in the input. -/
lemma firstNumRun_spec (l : List Char) (r : List Char)
    (h : firstNumRun l = some r) :
    r ≠ [] ∧ (∀ c ∈ r, numClass c = true) ∧ isSegment r l := by
  induction l with
  | nil => exact absurd h (by simp [firstNumRun])
  | cons a rest ih =>
    rw [firstNumRun] at h
    by_cases ha : numClass a = true
    · rw [if_pos ha] at h
      have hr : r = a :: rest.takeWhile numClass := (Option.some_inj.mp h).symm
      subst hr
      refine ⟨by simp, ?_, ?_⟩
      · intro c hc
        rcases List.mem_cons.mp hc with h1 | h1
        · exact h1 ▸ ha
        · exact List.mem_takeWhile_imp h1
      · refine ⟨[], rest.dropWhile numClass, ?_⟩
        simp [List.takeWhile_append_dropWhile]
    · rw [if_neg ha] at h
      rcases ih h with ⟨h1, h2, p, q, h3⟩
      exact ⟨h1, h2, a :: p, q, by rw [h3]; rfl⟩

/-- On Python floats, `a < b` rules out `b <= a`. -/
lemma pyLt_le_false {a b : PyFloat} (h : pyLt a b = true) : pyLe b a = false := by
  unfold pyLt at h
  rcases Bool.and_eq_true_iff.mp h with ⟨h1, h2⟩
  simpa using h2

/-- The loop body of the pass takes one of six shapes: skip of an invalid
record, skip on resolver failure or empty price, abort at `float(target)`,
notify-success plus delete, notify-failure, notify-raise. -/
lemma check_one_cases (r : Except Unit (Option PyFloat)) (n : Option Bool)
    (id : String) (t : Tracker) :
    check_one_tracker r n id t = Except.ok ([Event.visited id], false) ∨
    check_one_tracker r n id t =
      Except.ok ([Event.visited id, Event.resolveCall id], false) ∨
    check_one_tracker r n id t =
      Except.error [Event.visited id, Event.resolveCall id] ∨
    check_one_tracker r n id t =
      Except.ok ([Event.visited id, Event.resolveCall id,
        Event.notifyCall id (some true), Event.deleteAttempt id], true) ∨
    check_one_tracker r n id t =
      Except.ok ([Event.visited id, Event.resolveCall id,
        Event.notifyCall id (some false)], false) ∨
    check_one_tracker r n id t =
      Except.ok ([Event.visited id, Event.resolveCall id,
        Event.notifyCall id none], false) := by
  unfold check_one_tracker
  repeat' split
  all_goals simp

/-- Every event emitted while evaluating a record is tagged with that
record's id. -/
lemma stepEvents_eventId (r : Except Unit (Option PyFloat)) (n : Option Bool)
    (id : String) (t : Tracker) :
    ∀ e ∈ stepEvents r n id t, eventId e = id := by
  intro e he
  unfold stepEvents at he
  rcases check_one_cases r n id t with h | h | h | h | h | h <;> rw [h] at he <;>
    simp only [List.mem_cons, List.mem_singleton, List.not_mem_nil, or_false] at he
  all_goals (rcases he with he | he | he | he <;> try subst he) <;> rfl

/-- The loop body always emits the visit marker for its record. -/
lemma stepEvents_visited (r : Except Unit (Option PyFloat)) (n : Option Bool)
    (id : String) (t : Tracker) :
    Event.visited id ∈ stepEvents r n id t := by
  unfold stepEvents
  rcases check_one_cases r n id t with h | h | h | h | h | h <;> rw [h] <;> simp

/-- In one evaluation, a deletion attempt happens exactly when the
notification call returned success, in which case the evaluation's
events are exactly visit, resolve, successful notify, delete. -/
lemma step_delete_iff (r : Except Unit (Option PyFloat)) (n : Option Bool)
    (id : String) (t : Tracker) :
    (Event.deleteAttempt id ∈ stepEvents r n id t ↔
      Event.notifyCall id (some true) ∈ stepEvents r n id t)
    ∧ (Event.deleteAttempt id ∈ stepEvents r n id t →
        stepEvents r n id t = [Event.visited id, Event.resolveCall id,
          Event.notifyCall id (some true), Event.deleteAttempt id]) := by
  unfold stepEvents
  rcases check_one_cases r n id t with h | h | h | h | h | h <;> rw [h] <;> simp

/-- An invalid record's evaluation only visits it: no resolver call, no
notifier call, no deletion. -/
lemma step_invalid (r : Except Unit (Option PyFloat)) (n : Option Bool)
    (id : String) (t : Tracker) (h : invalidTracker t = true) :
    check_one_tracker r n id t = Except.ok ([Event.visited id], false) := by
  unfold check_one_tracker
  rw [if_pos h]

/-- A valid record whose resolved price does not meet its numeric target
is left alone: resolver called, nothing else. -/
lemma step_above_target (n : Option Bool) (id : String) (t : Tracker)
    (tv c : PyFloat) (hv : invalidTracker t = false)
    (htp : t.target_price = some (JVal.num tv))
    (hle : pyLe c tv = false) :
    check_one_tracker (Except.ok (some c)) n id t =
      Except.ok ([Event.visited id, Event.resolveCall id], false) := by
  unfold check_one_tracker
  rw [if_neg (by simp [hv]), htp]
  simp [pyFloatOfJVal, hle]

/-- Unfolding of the pass over a cons cell. -/
lemma aux_cons (resolve : String → Except Unit (Option PyFloat))
    (notify : String → Option Bool) (id : String) (t : Tracker)
    (rest : List (String × Tracker)) (fs : FS) :
    check_all_trackers_aux resolve notify ((id, t) :: rest) fs =
      match check_one_tracker (resolve id) (notify id) id t with
      | Except.error evs => (true, fs, evs)
      | Except.ok (evs, del) =>
        let fs2 := if del then delete_tracker_file fs id else fs
        let r := check_all_trackers_aux resolve notify rest fs2
        (r.1, r.2.1, evs ++ r.2.2) := rfl

/-- Every event of a pass belongs to the contiguous event block of the
evaluation of some listed record carrying the event's id. -/
lemma aux_event_block (resolve : String → Except Unit (Option PyFloat))
    (notify : String → Option Bool) :
    ∀ (l : List (String × Tracker)) (fs : FS) (e : Event),
    e ∈ (check_all_trackers_aux resolve notify l fs).2.2 →
    ∃ t p q, (eventId e, t) ∈ l ∧
      e ∈ stepEvents (resolve (eventId e)) (notify (eventId e)) (eventId e) t ∧
      (check_all_trackers_aux resolve notify l fs).2.2 =
        p ++ stepEvents (resolve (eventId e)) (notify (eventId e)) (eventId e) t ++ q := by
  intro l
  induction l with
  | nil =>
    intro fs e he
    exact absurd he (by simp [check_all_trackers_aux])
  | cons hd rest ih =>
    obtain ⟨id, t⟩ := hd
    intro fs e he
    rw [aux_cons] at he ⊢
    cases hstep : check_one_tracker (resolve id) (notify id) id t with
    | error evs =>
      rw [hstep] at he
      simp only at he ⊢
      have hse : stepEvents (resolve id) (notify id) id t = evs := by
        unfold stepEvents; rw [hstep]
      have he2 : e ∈ stepEvents (resolve id) (notify id) id t := by
        rw [hse]; exact he
      have hid : eventId e = id := stepEvents_eventId _ _ _ _ e he2
      refine ⟨t, [], [], ?_, ?_, ?_⟩
      · rw [hid]; exact List.mem_cons_self _ _
      · rw [hid]; exact he2
      · rw [hid, hse]; simp
    | ok pr =>
      obtain ⟨evs, del⟩ := pr
      rw [hstep] at he
      simp only at he ⊢
      have hse : stepEvents (resolve id) (notify id) id t = evs := by
        unfold stepEvents; rw [hstep]
      rcases List.mem_append.mp he with h1 | h1
      · have he2 : e ∈ stepEvents (resolve id) (notify id) id t := by
          rw [hse]; exact h1
        have hid : eventId e = id := stepEvents_eventId _ _ _ _ e he2
        refine ⟨t, [],
          (check_all_trackers_aux resolve notify rest
            (if del then delete_tracker_file fs id else fs)).2.2, ?_, ?_, ?_⟩
        · rw [hid]; exact List.mem_cons_self _ _
        · rw [hid]; exact he2
        · rw [hid, hse]; simp
      · rcases ih _ e h1 with ⟨t2, p, q, hmem, hstep2, heq⟩
        refine ⟨t2, evs ++ p, q, List.mem_cons_of_mem _ hmem, hstep2, ?_⟩
        rw [heq]; simp

/-- Deleting one record keeps every record with another id. -/
lemma delete_mem_of_ne (fs : FS) (p id : String) (t : Tracker)
    (hne : id ≠ p) (hmem : (id, t) ∈ fs) :
    (id, t) ∈ delete_tracker_file fs p := by
  unfold delete_tracker_file unlink
  by_cases h : (fs.any fun e => e.1 == p) = true
  · rw [if_pos h]
    show (id, t) ∈ List.filter (fun e => e.1 != p) fs
    exact List.mem_filter.mpr ⟨hmem, by simpa using hne⟩
  · rw [if_neg h]
    exact hmem

/-- A record that no listed evaluation deletes survives the pass. -/
lemma aux_mem_fs (resolve : String → Except Unit (Option PyFloat))
    (notify : String → Option Bool) :
    ∀ (l : List (String × Tracker)) (fs : FS) (id : String) (t : Tracker),
    (id, t) ∈ fs →
    (∀ t', (id, t') ∈ l →
      stepDeletes (resolve id) (notify id) id t' = false) →
    (id, t) ∈ (check_all_trackers_aux resolve notify l fs).2.1 := by
  intro l
  induction l with
  | nil => intro fs id t hmem _; exact hmem
  | cons hd rest ih =>
    obtain ⟨p, tp⟩ := hd
    intro fs id t hmem hdel
    rw [aux_cons]
    cases hstep : check_one_tracker (resolve p) (notify p) p tp with
    | error evs => exact hmem
    | ok pr =>
      obtain ⟨evs, del⟩ := pr
      simp only
      refine ih _ id t ?_ (fun t' ht' => hdel t' (List.mem_cons_of_mem _ ht'))
      by_cases hdel2 : del = true
      · subst hdel2
        simp only [if_pos rfl]
        by_cases hip : id = p
        · subst hip
          have : stepDeletes (resolve id) (notify id) id tp = false :=
            hdel tp (List.mem_cons_self _ _)
          rw [stepDeletes, hstep] at this
          simp at this
        · exact delete_mem_of_ne fs p id t hip hmem
      · simp only [Bool.not_eq_true] at hdel2
        subst hdel2
        simpa using hmem

/-- Deletion never adds records: the result is a sublist of the store. -/
lemma delete_sublist (fs : FS) (p : String) :
    List.Sublist (delete_tracker_file fs p) fs := by
  unfold delete_tracker_file unlink
  by_cases h : (fs.any fun e => e.1 == p) = true
  · rw [if_pos h]
    exact List.filter_sublist fs
  · rw [if_neg h]

/-- A pass only removes records: the final store is a sublist. -/
lemma aux_fs_sublist (resolve : String → Except Unit (Option PyFloat))
    (notify : String → Option Bool) :
    ∀ (l : List (String × Tracker)) (fs : FS),
    List.Sublist (check_all_trackers_aux resolve notify l fs).2.1 fs := by
  intro l
  induction l with
  | nil => intro fs; exact List.Sublist.refl fs
  | cons hd rest ih =>
    obtain ⟨p, tp⟩ := hd
    intro fs
    rw [aux_cons]
    cases check_one_tracker (resolve p) (notify p) p tp with
    | error evs => exact List.Sublist.refl fs
    | ok pr =>
      obtain ⟨evs, del⟩ := pr
      simp only
      refine (ih _).trans ?_
      by_cases hdel : del = true
      · subst hdel
        simp only [if_pos rfl]
        exact delete_sublist fs p
      · simp only [Bool.not_eq_true] at hdel
        subst hdel
        simp

/-- With duplicate-free ids, listing pins down a record's content. -/
lemma nodup_key_unique (l : List (String × Tracker)) (id : String)
    (t t' : Tracker) (hnd : (l.map Prod.fst).Nodup)
    (h1 : (id, t) ∈ l) (h2 : (id, t') ∈ l) : t = t' := by
  induction l with
  | nil => exact absurd h1 (List.not_mem_nil _)
  | cons hd rest ih =>
    obtain ⟨p, tp⟩ := hd
    rw [List.map_cons, List.nodup_cons] at hnd
    rcases List.mem_cons.mp h1 with ha | ha <;>
      rcases List.mem_cons.mp h2 with hb | hb
    · rw [Prod.mk.injEq] at ha hb
      rw [ha.2, hb.2]
    · exfalso
      rw [Prod.mk.injEq] at ha
      have hm := List.mem_map_of_mem Prod.fst hb
      rw [← ha.1] at hnd
      exact hnd.1 hm
    · exfalso
      rw [Prod.mk.injEq] at hb
      have hm := List.mem_map_of_mem Prod.fst ha
      rw [← hb.1] at hnd
      exact hnd.1 hm
    · exact ih hnd.2 ha hb

/-- Every event of a pass comes from the evaluation of some listed record
carrying the event's id. -/
lemma pass_event_source (resolve : String → Except Unit (Option PyFloat))
    (notify : String → Option Bool) (fs : FS) (e : Event)
    (he : e ∈ (check_all_trackers resolve notify fs).2.2) :
    ∃ t, (eventId e, t) ∈ fs ∧
      e ∈ stepEvents (resolve (eventId e)) (notify (eventId e)) (eventId e) t := by
  rcases aux_event_block resolve notify fs fs e he with ⟨t, p, q, h1, h2, _⟩
  exact ⟨t, h1, h2⟩

/-- With duplicate-free ids, an event of the pass tagged with a listed
record's id comes from that record's own evaluation. -/
lemma pass_step_for_id (resolve : String → Except Unit (Option PyFloat))
    (notify : String → Option Bool) (fs : FS) (id : String) (t : Tracker)
    (hnd : (fs.map Prod.fst).Nodup) (hmem : (id, t) ∈ fs) :
    ∀ e, eventId e = id → e ∈ (check_all_trackers resolve notify fs).2.2 →
      e ∈ stepEvents (resolve id) (notify id) id t := by
  intro e hid he
  rcases pass_event_source resolve notify fs e he with ⟨t2, hmem2, hstep⟩
  rw [hid] at hmem2 hstep
  rwa [nodup_key_unique fs id t t2 hnd hmem hmem2]

/-- One pass over a store with duplicate-free ids leaves a valid record
whose resolved price stays strictly above its numeric target untouched:
the record survives and receives no notify or delete event. -/
lemma pass_leaves_record (resolve : String → Except Unit (Option PyFloat))
    (notify : String → Option Bool) (fs : FS) (id : String) (t : Tracker)
    (tv c : PyFloat) (hnd : (fs.map Prod.fst).Nodup) (hmem : (id, t) ∈ fs)
    (hvalid : invalidTracker t = false)
    (htp : t.target_price = some (JVal.num tv))
    (hres : resolve id = Except.ok (some c)) (hlt : pyLt tv c = true) :
    (id, t) ∈ (check_all_trackers resolve notify fs).2.1 ∧
    (∀ b, Event.notifyCall id b ∉ (check_all_trackers resolve notify fs).2.2) ∧
    Event.deleteAttempt id ∉ (check_all_trackers resolve notify fs).2.2 := by
  have hstep : check_one_tracker (resolve id) (notify id) id t =
      Except.ok ([Event.visited id, Event.resolveCall id], false) := by
    rw [hres]
    exact step_above_target _ _ _ _ _ hvalid htp (pyLt_le_false hlt)
  have hse : stepEvents (resolve id) (notify id) id t =
      [Event.visited id, Event.resolveCall id] := by
    unfold stepEvents; rw [hstep]
  refine ⟨?_, ?_, ?_⟩
  · refine aux_mem_fs resolve notify fs fs id t hmem ?_
    intro t' ht'
    rw [nodup_key_unique fs id t' t hnd ht' hmem]
    unfold stepDeletes; rw [hstep]
  · intro b hc
    have := pass_step_for_id resolve notify fs id t hnd hmem
      (Event.notifyCall id b) rfl hc
    rw [hse] at this; simp at this
  · intro hc
    have := pass_step_for_id resolve notify fs id t hnd hmem
      (Event.deleteAttempt id) rfl hc
    rw [hse] at this; simp at this

/-- A pass preserves freedom from duplicate ids. -/
lemma pass_nodup (resolve : String → Except Unit (Option PyFloat))
    (notify : String → Option Bool) (fs : FS)
    (hnd : (fs.map Prod.fst).Nodup) :
    (((check_all_trackers resolve notify fs).2.1).map Prod.fst).Nodup :=
  hnd.sublist (List.Sublist.map Prod.fst (aux_fs_sublist resolve notify fs fs))

/-- C4: a valid tracker whose resolved current price is strictly greater
than its numeric target on every pass stays persisted (PENDING) across
arbitrarily many scheduled passes, receives no notification call of any
outcome, and no deletion of its record is ever attempted. -/
theorem c4_monotonic_retry (resolve : Nat → String → Except Unit (Option PyFloat))
    (notify : Nat → String → Option Bool) (fs : FS) (id : String) (t : Tracker)
    (tv : PyFloat) (hmem : (id, t) ∈ fs) (hnd : (fs.map Prod.fst).Nodup)
    (hvalid : invalidTracker t = false)
    (htp : t.target_price = some (JVal.num tv))
    (hres : ∀ i, ∃ c, resolve i id = Except.ok (some c) ∧ pyLt tv c = true) :
    ∀ n, (id, t) ∈ (check_all_trackers_iter resolve notify n fs).1 ∧
      (∀ b, Event.notifyCall id b ∉ (check_all_trackers_iter resolve notify n fs).2) ∧
      Event.deleteAttempt id ∉ (check_all_trackers_iter resolve notify n fs).2 := by
  intro n
  induction n generalizing resolve notify fs with
  | zero =>
    exact ⟨hmem, fun b => by simp [check_all_trackers_iter],
      by simp [check_all_trackers_iter]⟩
  | succ n ih =>
    obtain ⟨c, hr0, hlt0⟩ := hres 0
    have hp := pass_leaves_record (resolve 0) (notify 0) fs id t tv c hnd hmem
      hvalid htp hr0 hlt0
    have hnd1 := pass_nodup (resolve 0) (notify 0) fs hnd
    have hih := ih (fun i => resolve (i + 1)) (fun i => notify (i + 1))
      ((check_all_trackers (resolve 0) (notify 0) fs).2.1) hp.1 hnd1
      (fun i => hres (i + 1))
    simp only [check_all_trackers_iter]
    refine ⟨hih.1, ?_, ?_⟩
    · intro b hc
      rcases List.mem_append.mp hc with h | h
      · exact hp.2.1 b h
      · exact hih.2.1 b h
    · intro hc
      rcases List.mem_append.mp hc with h | h
      · exact hp.2.2 h
      · exact hih.2.2 h

/-- C6: a persisted record lacking any of url, target_price or email is
skipped by a pass: the resolver is not called for it, the notifier is not
called for it, no deletion of it is attempted, and it stays in the store
unchanged. -/
theorem c6_skip_missing_fields (resolve : String → Except Unit (Option PyFloat))
    (notify : String → Option Bool) (fs : FS) (id : String) (t : Tracker)
    (hmem : (id, t) ∈ fs) (hnd : (fs.map Prod.fst).Nodup)
    (hmiss : t.url = none ∨ t.target_price = none ∨ t.email = none) :
    Event.resolveCall id ∉ (check_all_trackers resolve notify fs).2.2 ∧
    (∀ b, Event.notifyCall id b ∉ (check_all_trackers resolve notify fs).2.2) ∧
    Event.deleteAttempt id ∉ (check_all_trackers resolve notify fs).2.2 ∧
    (id, t) ∈ (check_all_trackers resolve notify fs).2.1 := by
  have hinv : invalidTracker t = true := by
    rcases hmiss with h | h | h <;> simp [invalidTracker, h]
  have hstep : check_one_tracker (resolve id) (notify id) id t =
      Except.ok ([Event.visited id], false) := step_invalid _ _ _ _ hinv
  have hse : stepEvents (resolve id) (notify id) id t = [Event.visited id] := by
    unfold stepEvents; rw [hstep]
  refine ⟨?_, ?_, ?_, ?_⟩
  · intro hc
    have := pass_step_for_id resolve notify fs id t hnd hmem
      (Event.resolveCall id) rfl hc
    rw [hse] at this; simp at this
  · intro b hc
    have := pass_step_for_id resolve notify fs id t hnd hmem
      (Event.notifyCall id b) rfl hc
    rw [hse] at this; simp at this
  · intro hc
    have := pass_step_for_id resolve notify fs id t hnd hmem
      (Event.deleteAttempt id) rfl hc
    rw [hse] at this; simp at this
  · refine aux_mem_fs resolve notify fs fs id t hmem ?_
    intro t' ht'
    rw [nodup_key_unique fs id t' t hnd ht' hmem]
    unfold stepDeletes; rw [hstep]

/-- The immediate on-create evaluation emits one of five event traces:
rejected request, save-and-skip, save-notify-delete, save with failed
notify, save with raising notify. -/
lemma track_events_cases (freshId : String) (now : ℚ)
    (resolve : Except Unit (Option PyFloat)) (notify : Option Bool)
    (req : TrackRequest) (fs : FS) :
    (track freshId now resolve notify req fs).2.2 = [] ∨
    (track freshId now resolve notify req fs).2.2 =
      [Event.saved freshId, Event.resolveCall freshId] ∨
    (track freshId now resolve notify req fs).2.2 =
      [Event.saved freshId, Event.resolveCall freshId,
        Event.notifyCall freshId (some true), Event.deleteAttempt freshId] ∨
    (track freshId now resolve notify req fs).2.2 =
      [Event.saved freshId, Event.resolveCall freshId,
        Event.notifyCall freshId (some false)] ∨
    (track freshId now resolve notify req fs).2.2 =
      [Event.saved freshId, Event.resolveCall freshId,
        Event.notifyCall freshId none] := by
  unfold track
  by_cases h1 : (!strTruthy req.url ||
      !(match jvalOr req.target_price req.target with
        | some v => jvalTruthy v | none => false) || !strTruthy req.email) = true
  · rw [if_pos h1]; simp
  · rw [if_neg h1]
    cases hc : pyFloatOfJVal ((jvalOr req.target_price req.target).getD JVal.null) with
    | error e => cases e <;> simp
    | ok tp =>
      cases resolve with
      | error u => simp
      | ok copt =>
        cases copt with
        | none => simp
        | some c =>
          by_cases h2 : pyLe c tp = true
          · cases notify with
            | none => simp [h2]
            | some b => cases b <;> simp [h2]
          · simp [h2]

/-- C1: in a full check pass and in the immediate on-create evaluation, a
deletion of a tracker's record is attempted exactly when the notification
call for that tracker returned success; moreover the deletion follows the
successful notification immediately (the two events form a contiguous
segment of the trace in that order): no delete-without-notify and no
notify-without-delete. -/
theorem c1_notify_retire_coupling
    (resolve : String → Except Unit (Option PyFloat)) (notify : String → Option Bool)
    (fs : FS) (id : String) (freshId : String) (now : ℚ)
    (resolve1 : Except Unit (Option PyFloat)) (notify1 : Option Bool)
    (req : TrackRequest) (fs0 : FS) :
    (Event.deleteAttempt id ∈ (check_all_trackers resolve notify fs).2.2 ↔
      Event.notifyCall id (some true) ∈ (check_all_trackers resolve notify fs).2.2) ∧
    (Event.deleteAttempt id ∈ (check_all_trackers resolve notify fs).2.2 →
      isSegment [Event.notifyCall id (some true), Event.deleteAttempt id]
        (check_all_trackers resolve notify fs).2.2) ∧
    (Event.deleteAttempt id ∈ (track freshId now resolve1 notify1 req fs0).2.2 ↔
      Event.notifyCall id (some true) ∈ (track freshId now resolve1 notify1 req fs0).2.2) ∧
    (Event.deleteAttempt id ∈ (track freshId now resolve1 notify1 req fs0).2.2 →
      isSegment [Event.notifyCall id (some true), Event.deleteAttempt id]
        (track freshId now resolve1 notify1 req fs0).2.2) := by
  refine ⟨?_, ?_, ?_, ?_⟩
  · unfold check_all_trackers
    constructor
    · intro hd
      rcases aux_event_block resolve notify fs fs _ hd with ⟨t, p, q, hmem, hsm, heq⟩
      simp only [eventId] at hmem hsm heq
      have h4 := (step_delete_iff (resolve id) (notify id) id t).2 hsm
      have hn : Event.notifyCall id (some true) ∈
          stepEvents (resolve id) (notify id) id t := by
        rw [h4]; simp
      rw [heq]
      exact List.mem_append.mpr (Or.inl (List.mem_append.mpr (Or.inr hn)))
    · intro hnm
      rcases aux_event_block resolve notify fs fs _ hnm with ⟨t, p, q, hmem, hsm, heq⟩
      simp only [eventId] at hmem hsm heq
      have hd : Event.deleteAttempt id ∈
          stepEvents (resolve id) (notify id) id t :=
        (step_delete_iff (resolve id) (notify id) id t).1.mpr hsm
      rw [heq]
      exact List.mem_append.mpr (Or.inl (List.mem_append.mpr (Or.inr hd)))
  · unfold check_all_trackers
    intro hd
    rcases aux_event_block resolve notify fs fs _ hd with ⟨t, p, q, hmem, hsm, heq⟩
    simp only [eventId] at hmem hsm heq
    have h4 := (step_delete_iff (resolve id) (notify id) id t).2 hsm
    refine ⟨p ++ [Event.visited id, Event.resolveCall id], q, ?_⟩
    rw [heq, h4]
    simp
  · rcases track_events_cases freshId now resolve1 notify1 req fs0 with
      h | h | h | h | h <;> rw [h] <;> simp
  · rcases track_events_cases freshId now resolve1 notify1 req fs0 with
      h | h | h | h | h <;> rw [h] <;> intro hd <;> simp at hd
    subst hd
    exact ⟨[Event.saved id, Event.resolveCall id], [], rfl⟩

/-- C2: the claim fails on the code.  With a persisted record whose
`target_price` is the JSON string "abc" (present, truthy, so it passes
the line-159 validity check) and a resolver that returns a price, the
`float(target)` evaluated inside the `logging.info` call at line 173 —
outside both `try` blocks — raises `ValueError`, the pass aborts, and the
following record "b" is never evaluated. -/
theorem c2_pass_abort_on_string_target :
    (check_all_trackers (fun _ => Except.ok (some (PyFloat.finite 100)))
      (fun _ => some false) abortStore).1 = true ∧
    Event.visited "a" ∈ (check_all_trackers
      (fun _ => Except.ok (some (PyFloat.finite 100)))
      (fun _ => some false) abortStore).2.2 ∧
    Event.visited "b" ∉ (check_all_trackers
      (fun _ => Except.ok (some (PyFloat.finite 100)))
      (fun _ => some false) abortStore).2.2 := by
  decide

/-- C7: `send_email` returns `False` with zero delivery attempts when the
SMTP credentials are missing or empty, and otherwise performs exactly one
delivery attempt, returning `True` exactly when the `smtplib` block ran to
completion and `False` (not an exception) when it raised. -/
theorem c7_send_email_contract (cfg : SmtpConfig) (transport : Except Unit Unit) :
    (credsMissing cfg = true → send_email cfg transport = (false, 0)) ∧
    (credsMissing cfg = false →
      (send_email cfg transport).2 = 1 ∧
      ((send_email cfg transport).1 = true ↔ transport = Except.ok ())) := by
  constructor
  · intro h
    unfold send_email
    rw [if_pos h]
  · intro h
    unfold send_email
    rw [if_neg (by simp [h])]
    cases transport with
    | ok u => cases u; simp
    | error e => cases e; simp

/-- Records surviving a straight filter on a different id. -/
lemma filter_any_self (fs : FS) (id : String) :
    ((fs.filter (fun e => e.1 != id)).any (fun e => e.1 == id)) = false := by
  rw [Bool.eq_false_iff]
  intro h
  rcases List.any_eq_true.mp h with ⟨e, he, hid⟩
  have h2 := (List.mem_filter.mp he).2
  simp at hid h2
  exact h2 hid

/-- Deleting an id that is absent from the store changes nothing. -/
lemma delete_absent (fs : FS) (id : String)
    (h : (fs.any fun e => e.1 == id) = false) :
    delete_tracker_file fs id = fs := by
  unfold delete_tracker_file unlink
  rw [if_neg (by rw [h]; simp)]

/-- C8: `delete_tracker_file` is idempotent and non-raising: it is a total
function on the store; deleting an id with no record is a no-op, and a
second delete of the same id after a first one changes nothing. -/
theorem c8_delete_idempotent (fs : FS) (id : String) :
    ((∀ t, (id, t) ∉ fs) → delete_tracker_file fs id = fs) ∧
    delete_tracker_file (delete_tracker_file fs id) id =
      delete_tracker_file fs id := by
  constructor
  · intro habs
    apply delete_absent
    rw [Bool.eq_false_iff]
    intro h
    rcases List.any_eq_true.mp h with ⟨e, he, hid⟩
    simp at hid
    have he2 : (e.1, e.2) ∈ fs := by simpa using he
    rw [hid] at he2
    exact habs e.2 he2
  · by_cases h : (fs.any fun e => e.1 == id) = true
    · have h1 : delete_tracker_file fs id = fs.filter (fun e => e.1 != id) := by
        unfold delete_tracker_file unlink
        rw [if_pos h]
      rw [h1, delete_absent _ _ (filter_any_self fs id)]
    · have hd := delete_absent fs id (Bool.eq_false_iff.mpr h)
      rw [hd]
      exact hd

/-- After deleting an id, no record with that id remains (a successful
unlink removes it; a failed unlink means it was never there). -/
lemma delete_self_not_mem (fs : FS) (id : String) (t' : Tracker) :
    (id, t') ∉ delete_tracker_file fs id := by
  unfold delete_tracker_file unlink
  by_cases h : (fs.any fun e => e.1 == id) = true
  · rw [if_pos h]
    intro hc
    have h2 := (List.mem_filter.mp hc).2
    simp at h2
  · rw [if_neg h]
    intro hc
    exact h (List.any_eq_true.mpr ⟨(id, t'), hc, by simp⟩)

/-- C5: the claim fails on the code.  The request (url "u", numeric
target_price 0, email "e") is answered with ok false and HTTP 400; no
record is persisted and no evaluation happens, contradicting the claim
for every creation request with a numeric target_price. -/
theorem c5_counterexample_zero_target :
    (track "tid" 0 (Except.ok none) (some false) zeroTargetReq []).1.ok = false ∧
    (track "tid" 0 (Except.ok none) (some false) zeroTargetReq []).1.status = 400 ∧
    (track "tid" 0 (Except.ok none) (some false) zeroTargetReq []).2.1 = [] ∧
    (track "tid" 0 (Except.ok none) (some false) zeroTargetReq []).2.2 = [] := by
  decide

/-- C5 (amended): for every creation request with non-empty url, non-empty
email and nonzero finite numeric target_price, `track` answers ok/200 with
the fresh id; the reported current price is the resolver's outcome (empty
on failure or error); `emailed` is true exactly when a successful
notification happened during the immediate evaluation; when the price
qualifies and notification succeeds the record is deleted immediately; and
the record is saved first and evaluated exactly once. -/
theorem c5_amended_create_contract (url email freshId : String) (q now : ℚ)
    (hot : Option JVal) (resolve : Except Unit (Option PyFloat))
    (notify : Option Bool) (fs : FS)
    (hu : url ≠ "") (he : email ≠ "") (hq : q ≠ 0) :
    (track freshId now resolve notify (mkReq url q hot email) fs).1.ok = true ∧
    (track freshId now resolve notify (mkReq url q hot email) fs).1.status = 200 ∧
    (track freshId now resolve notify (mkReq url q hot email) fs).1.id =
      some freshId ∧
    (track freshId now resolve notify (mkReq url q hot email) fs).1.current_price =
      (match resolve with | Except.error _ => none | Except.ok c => c) ∧
    ((track freshId now resolve notify (mkReq url q hot email) fs).1.emailed =
        some true ↔
      Event.notifyCall freshId (some true) ∈
        (track freshId now resolve notify (mkReq url q hot email) fs).2.2) ∧
    (∀ c, resolve = Except.ok (some c) → pyLe c (PyFloat.finite q) = true →
      notify = some true →
      ∀ t', (freshId, t') ∉
        (track freshId now resolve notify (mkReq url q hot email) fs).2.1) ∧
    (∃ rest, (track freshId now resolve notify (mkReq url q hot email) fs).2.2 =
        Event.saved freshId :: Event.resolveCall freshId :: rest ∧
      Event.saved freshId ∉ rest ∧ Event.resolveCall freshId ∉ rest) := by
  cases resolve with
  | error u =>
    cases u
    refine ⟨?_, ?_, ?_, ?_, ?_, ?_, ?_⟩ <;>
      simp [track, mkReq, mkTracker, jvalOr, jvalTruthy, strTruthy,
        pyFloatOfJVal, hu, he, hq]
  | ok copt =>
    cases copt with
    | none =>
      refine ⟨?_, ?_, ?_, ?_, ?_, ?_, ?_⟩ <;>
        simp [track, mkReq, mkTracker, jvalOr, jvalTruthy, strTruthy,
          pyFloatOfJVal, hu, he, hq]
    | some c0 =>
      by_cases h2 : pyLe c0 (PyFloat.finite q) = true
      · cases notify with
        | none =>
          refine ⟨?_, ?_, ?_, ?_, ?_, ?_, ?_⟩ <;>
            simp [track, mkReq, mkTracker, jvalOr, jvalTruthy, strTruthy,
              pyFloatOfJVal, hu, he, hq, h2]
        | some b =>
          cases b with
          | false =>
            refine ⟨?_, ?_, ?_, ?_, ?_, ?_, ?_⟩ <;>
              simp [track, mkReq, mkTracker, jvalOr, jvalTruthy, strTruthy,
                pyFloatOfJVal, hu, he, hq, h2]
          | true =>
            refine ⟨?_, ?_, ?_, ?_, ?_, ?_, ?_⟩ <;>
              simp [track, mkReq, mkTracker, jvalOr, jvalTruthy, strTruthy,
                pyFloatOfJVal, hu, he, hq, h2]
            intro t' hc
            exact delete_self_not_mem _ freshId t' hc
      · refine ⟨?_, ?_, ?_, ?_, ?_, ?_, ?_⟩ <;>
          simp [track, mkReq, mkTracker, jvalOr, jvalTruthy, strTruthy,
            pyFloatOfJVal, hu, he, hq, h2]

/-- C10: for a well-formed creation request the record is persisted before
the immediate evaluation; when the price fetch raises, the request still
succeeds with the new id, emailed false and empty current price, and the
record stays on disk; likewise when the notification step fails (returns
False) or raises (caught at line 225), the request succeeds with emailed
false and the record stays on disk. -/
theorem c10_create_error_resilience (url email freshId : String) (q now : ℚ)
    (hot : Option JVal) (fs : FS)
    (hu : url ≠ "") (he : email ≠ "") (hq : q ≠ 0) :
    (∀ notify,
      (track freshId now (Except.error ()) notify (mkReq url q hot email) fs).1 =
        TrackResponse.mk true 200 (some freshId) (some false) none ∧
      (track freshId now (Except.error ()) notify (mkReq url q hot email) fs).2.1 =
        fs ++ [(freshId, mkTracker url q email now)] ∧
      (track freshId now (Except.error ()) notify (mkReq url q hot email) fs).2.2 =
        [Event.saved freshId, Event.resolveCall freshId]) ∧
    (∀ c notify, notify = none ∨ notify = some false →
      (track freshId now (Except.ok (some c)) notify
        (mkReq url q hot email) fs).1.ok = true ∧
      (track freshId now (Except.ok (some c)) notify
        (mkReq url q hot email) fs).1.emailed = some false ∧
      (track freshId now (Except.ok (some c)) notify
        (mkReq url q hot email) fs).2.1 =
        fs ++ [(freshId, mkTracker url q email now)]) := by
  constructor
  · intro notify
    refine ⟨?_, ?_, ?_⟩ <;>
      simp [track, mkReq, mkTracker, jvalOr, jvalTruthy, strTruthy,
        pyFloatOfJVal, hu, he, hq]
  · intro c notify hn
    rcases hn with hn | hn <;> subst hn <;>
      by_cases h2 : pyLe c (PyFloat.finite q) = true <;>
      refine ⟨?_, ?_, ?_⟩ <;>
        simp [track, mkReq, mkTracker, jvalOr, jvalTruthy, strTruthy,
          pyFloatOfJVal, hu, he, hq, h2]

/-- Characters of the cleaned price text come from the raw text. -/
lemma cleanChars_subset (l : List Char) : ∀ c ∈ cleanChars l, c ∈ l := by
  intro c hc
  unfold cleanChars at hc
  have h1 := trimWs_subset _ c hc
  have h2 := removePat_subset _ _ _ c h1
  have h3 := removePat_subset _ _ _ c h2
  have h4 := removePat_subset _ _ _ c h3
  have h5 := removePat_subset _ _ _ c h4
  exact removePat_subset _ _ _ c h5

/-- C3: the claim fails on the code.  The matched text "nan" contains no
digit, yet normalization yields the float nan rather than the empty
result, because Python's `float(str)` accepts the special spelling. -/
theorem c3_counterexample_nan :
    (∀ c ∈ ("nan" : String).data, c.isDigit = false) ∧
    get_price_normalize "nan" = some PyFloat.nan := by
  decide

/-- C3 (amended): normalization maps "₹1,23,456.50" to 123456.50 (the
rational 246913/2) and "Rs. 999" to 999.0; and matched text containing no
digit yields the empty result provided it is ASCII and its cleaned form
does not spell one of the special float literals inf/infinity/nan (which
Python's `float` accepts without digits). -/
theorem c3_price_normalization :
    get_price_normalize "₹1,23,456.50" = some (PyFloat.finite (mkRat 246913 2)) ∧
    get_price_normalize "Rs. 999" = some (PyFloat.finite 999) ∧
    ∀ s : String, (∀ c ∈ s.data, c.toNat < 128) →
      (∀ c ∈ s.data, c.isDigit = false) →
      isSpecialLit (afterSign (cleanChars s.data)) = false →
      get_price_normalize s = none := by
  refine ⟨by decide, by decide, ?_⟩
  intro s hascii hnd hsp
  unfold get_price_normalize
  by_cases hs : s = ""
  · rw [if_pos hs]
  · rw [if_neg hs]
    have hclean : ∀ c ∈ cleanChars s.data, c.isDigit = false :=
      fun c hc => hnd c (cleanChars_subset s.data c hc)
    have h1 : pyFloatOfChars (cleanChars s.data) = none :=
      pyFloatOfChars_nodigit _ hclean hsp
    simp only [h1]
    cases hr : firstNumRun (cleanChars s.data) with
    | none => simp
    | some r =>
      simp only
      rcases firstNumRun_spec _ r hr with ⟨hne, hcls, p, qq, heq⟩
      have hrsub : ∀ c ∈ r, c ∈ cleanChars s.data := by
        intro c hc
        rw [heq]
        simp [hc]
      have hrdig : ∀ c ∈ r, c.isDigit = false :=
        fun c hc => hclean c (hrsub c hc)
      have hdot : ∀ c ∈ r, c = '.' := by
        intro c hc
        have h4 := hcls c hc
        unfold numClass at h4
        simp only [Bool.or_eq_true] at h4
        rcases h4 with h | h
        · exact absurd h (by simp [hrdig c hc])
        · simpa using h
      have hnosp : isSpecialLit (afterSign r) = false := by
        apply isSpecialLit_false_of_no_n
        intro c hc
        rw [hdot c (afterSign_subset r c hc)]
        decide
      exact pyFloatOfChars_nodigit r hrdig hnosp

/-- C9: the claim fails on the code.  For matched text "1.2.3" direct
parsing fails, and "1.2" is a substring of the cleaned text made of
digits and a single decimal point that parses to 1.2 — yet the resolver
returns the empty result, because the fallback regex `[\d\.]+` greedily
grabs "1.2.3", whose parse fails. -/
theorem c9_counterexample_multidot :
    get_price_normalize "1.2.3" = none ∧
    isSegment ("1.2".data) (cleanChars "1.2.3".data) ∧
    (∀ c ∈ ("1.2".data), c.isDigit = true ∨ c = '.') ∧
    ("1.2".data).count '.' = 1 ∧
    pyFloatOfChars "1.2".data = some (PyFloat.finite (mkRat 6 5)) := by
  refine ⟨by decide, ⟨[], ['.', '3'], by decide⟩, by decide, by decide, by decide⟩

/-- C9 (amended): when direct parsing of the cleaned matched text fails,
the resolver parses the first maximal run of digit-or-dot characters
(possibly containing several dots) and returns that parse's result — the
empty result both when no such run exists and when the run itself fails
to parse, even if a shorter substring with a single decimal point would
have parsed. -/
theorem c9_fallback_run (s : String) (hs : s ≠ "")
    (hfail : pyFloatOfChars (cleanChars s.data) = none) :
    get_price_normalize s =
      (match firstNumRun (cleanChars s.data) with
       | some r => pyFloatOfChars r
       | none => none) ∧
    ∀ r, firstNumRun (cleanChars s.data) = some r →
      r ≠ [] ∧ (∀ c ∈ r, c.isDigit = true ∨ c = '.') ∧
      isSegment r (cleanChars s.data) := by
  constructor
  · unfold get_price_normalize
    rw [if_neg hs]
    simp only [hfail]
  · intro r hr
    rcases firstNumRun_spec _ r hr with ⟨h1, h2, h3⟩
    refine ⟨h1, ?_, h3⟩
    intro c hc
    have h4 := h2 c hc
    unfold numClass at h4
    simp only [Bool.or_eq_true] at h4
    rcases h4 with h | h
    · exact Or.inl h
    · exact Or.inr (by simpa using h)

/-- Witness for C1 at a concrete on-create evaluation whose notification
succeeds. -/
theorem c1_notify_retire_coupling_witness :
    Event.deleteAttempt "x" ∈ (track "x" 0 (Except.ok (some (PyFloat.finite 1)))
      (some true) (mkReq "u" 5 none "e") []).2.2 ↔
    Event.notifyCall "x" (some true) ∈ (track "x" 0
      (Except.ok (some (PyFloat.finite 1)))
      (some true) (mkReq "u" 5 none "e") []).2.2 :=
  (c1_notify_retire_coupling (fun _ => Except.ok none) (fun _ => some false) []
    "x" "x" 0 (Except.ok (some (PyFloat.finite 1))) (some true)
    (mkReq "u" 5 none "e") []).2.2.1

/-- Witness for the amended C3 on a digit-free matched text. -/
theorem c3_price_normalization_witness :
    get_price_normalize "abc" = none :=
  c3_price_normalization.2.2 "abc" (by decide) (by decide) (by decide)

/-- Witness for C4: a tracker with target 500 whose price resolves to 600
on every pass is still persisted after two passes. -/
theorem c4_monotonic_retry_witness :
    ("b", okTracker) ∈ (check_all_trackers_iter
      (fun _ _ => Except.ok (some (PyFloat.finite 600)))
      (fun _ _ => some true) 2 [("b", okTracker)]).1 :=
  (c4_monotonic_retry (fun _ _ => Except.ok (some (PyFloat.finite 600)))
    (fun _ _ => some true) [("b", okTracker)] "b" okTracker
    (PyFloat.finite 500) (by decide) (by decide) (by decide) rfl
    (fun i => ⟨PyFloat.finite 600, rfl, by decide⟩) 2).1

/-- Witness for the amended C5 on a concrete valid request. -/
theorem c5_amended_create_contract_witness :
    (track "t" 0 (Except.ok none) (some false) (mkReq "u" 5 none "e") []).1.ok =
      true :=
  (c5_amended_create_contract "u" "e" "t" 5 0 none (Except.ok none) (some false)
    [] (by decide) (by decide) (by decide)).1

/-- Witness for C6: a record missing its email survives a pass. -/
theorem c6_skip_missing_fields_witness :
    ("a", Tracker.mk (some "u") (some (JVal.num (PyFloat.finite 5))) none none) ∈
      (check_all_trackers (fun _ => Except.ok none) (fun _ => some true)
        [("a", Tracker.mk (some "u") (some (JVal.num (PyFloat.finite 5)))
          none none)]).2.1 :=
  (c6_skip_missing_fields (fun _ => Except.ok none) (fun _ => some true)
    [("a", Tracker.mk (some "u") (some (JVal.num (PyFloat.finite 5))) none none)]
    "a" (Tracker.mk (some "u") (some (JVal.num (PyFloat.finite 5))) none none)
    (by decide) (by decide) (Or.inr (Or.inr rfl))).2.2.2

/-- Witness for C7 with unset credentials. -/
theorem c7_send_email_contract_witness :
    send_email (SmtpConfig.mk none none) (Except.ok ()) = (false, 0) :=
  (c7_send_email_contract (SmtpConfig.mk none none) (Except.ok ())).1 (by decide)

/-- Witness for C8 on the empty store. -/
theorem c8_delete_idempotent_witness :
    delete_tracker_file ([] : FS) "x" = [] :=
  (c8_delete_idempotent [] "x").1 (fun _ h => List.not_mem_nil _ h)

/-- Witness for the amended C9 on a text whose direct parse fails. -/
theorem c9_fallback_run_witness :
    get_price_normalize "x.y" =
      (match firstNumRun (cleanChars ("x.y" : String).data) with
       | some r => pyFloatOfChars r
       | none => none) :=
  (c9_fallback_run "x.y" (by decide) (by decide)).1

/-- Witness for C10 with a raising price fetch. -/
theorem c10_create_error_resilience_witness :
    (track "t" 0 (Except.error ()) (some true) (mkReq "u" 5 none "e") []).1 =
      TrackResponse.mk true 200 (some "t") (some false) none :=
  ((c10_create_error_resilience "u" "e" "t" 5 0 none [] (by decide) (by decide)
    (by decide)).1 (some true)).1

end PriceTracker
